import Mathlib

/-!
# psifork2/plugins: GnuPG binary lookup and OTR session coordination

Shallow embedding of

* `src/generic/openpgpplugin/src/gpgprocess.cpp` (`checkBin`, `GpgProcess::findBin`,
  `GpgProcess::info`, the `GpgProcess` constructor), for the build that is neither
  Windows nor Mac (`Q_OS_WIN` and `Q_OS_MAC` undefined);
* the session coordinator and verification exchange declared in
  `src/dev/otrplugin/src/psiotrclosure.h`, whose member-function bodies are not part of
  the sources and are modelled from the specification.

A `QString` is a list of characters.  The file system, the application directory, the
`PATH` variable and the home directory are explicit parameters.
-/

namespace OpenPgpPluginNamespace

/-- A `QString`, as its sequence of characters; `isEmpty` is `List.isEmpty`. -/
abbrev QString := List Char

/-- What `findBin` and the constructor read from the outside world. -/
structure Env where
  /-- The value of `QFileInfo(p).exists()`. -/
  fileExists : QString → Bool
  /-- The value of `QCoreApplication::applicationDirPath()`. -/
  applicationDirPath : QString
  /-- The value of `QString::fromLocal8Bit(qgetenv("PATH"))`. -/
  PATH : QString
  /-- The value of `QDir::homePath()`. -/
  homePath : QString

/-- The function `checkBin(bin)`: `QFileInfo fi(bin); return fi.exists();`. -/
def checkBin (env : Env) (bin : QString) : Bool :=
  env.fileExists bin

/-- The list `QStringList bins { "gpg", "gpg2" }` (the non-Windows branch). -/
def bins : List QString := [['g', 'p', 'g'], ['g', 'p', 'g', '2']]

/-- The separator `pathSep = ":"` (the non-Windows branch). -/
def pathSep : Char := ':'

/-- The call `QString::split(sep, Qt::SkipEmptyParts)` for a one-character separator: the
fields between separators, the empty ones dropped. -/
def splitSkipEmptyParts (sep : Char) (s : QString) : List QString :=
  (s.splitOn sep).filter (fun part => !part.isEmpty)

/-- The call `QStringList::removeDuplicates()`: every entry keeps its first occurrence, the
order is preserved. -/
def removeDuplicates : List QString → List QString
  | [] => []
  | x :: xs => x :: (removeDuplicates xs).filter (fun y => decide (y ≠ x))

/-- The loop `for (const QString &bin : bins) if (checkBin(dir + "/" + bin)) return
dir + "/" + bin;`: `some` path when the loop returns, `none` when it falls through. -/
def searchBins (env : Env) (dir : QString) : List QString → Option QString
  | [] => none
  | bin :: rest =>
    if checkBin env (dir ++ ['/'] ++ bin) then some (dir ++ ['/'] ++ bin)
    else searchBins env dir rest

/-- The loop `for (const QString &path : paths) for (const QString &bin : bins) ...`. -/
def searchPaths (env : Env) : List QString → Option QString
  | [] => none
  | path :: rest =>
    match searchBins env path bins with
    | some found => some found
    | none => searchPaths env rest

/-- The member function `GpgProcess::findBin()`. -/
def findBin (env : Env) : QString :=
  -- Prefer bundled gpg
  match searchBins env env.applicationDirPath bins with
  | some found => found
  | none =>
    -- Look up at PATH environment
    let paths := removeDuplicates (splitSkipEmptyParts pathSep env.PATH)
    match searchPaths env paths with
    | some found => found
    -- Return nothing if gpg not found
    | none => []

/-- The enumeration `QProcess::ProcessError`, the type of `error()`. -/
inductive ProcessError where
  | FailedToStart
  | Crashed
  | Timedout
  | ReadError
  | WriteError
  | UnknownError
  deriving DecidableEq, Repr

/-- The call `QStringList::join(" ")`. -/
def joinSpace : List QString → QString
  | [] => []
  | [x] => x
  | x :: y :: rest => x ++ [' '] ++ joinSpace (y :: rest)

/-- The list `arguments = { "--version", "--no-tty" }` of `info`. -/
def infoArguments : List QString :=
  [['-', '-', 'v', 'e', 'r', 's', 'i', 'o', 'n'], ['-', '-', 'n', 'o', '-', 't', 't', 'y']]

/-- The source text `"Can't start "`. -/
def cantStartText : QString :=
  ['C', 'a', 'n', Char.ofNat 39, 't', ' ', 's', 't', 'a', 'r', 't', ' ']

/-- The source text `"GnuPG program not found"`. -/
def notFoundText : QString :=
  ['G', 'n', 'u', 'P', 'G', ' ', 'p', 'r', 'o', 'g', 'r', 'a', 'm', ' ',
   'n', 'o', 't', ' ', 'f', 'o', 'u', 'n', 'd']

/-- The member function `GpgProcess::info(message)`, after `start(arguments); waitForFinished();`.
`tr` is the translation of a source text, `gpgBin` the static `m_gpgBin`, `error` the
value of `error()`, `output` the text read by `readAll()`.  The result is the returned
`res` and the value left in `message`.  `QDir::toNativeSeparators` is the identity off
Windows, and `QString("%1 %2\n%3").arg(a, b, c)` is `a + " " + b + "\n" + c`. -/
def info (tr : QString → QString) (gpgBin : QString) (error : ProcessError)
    (output : QString) : Bool × QString :=
  if !gpgBin.isEmpty then
    if error = ProcessError.FailedToStart then
      (false, tr cantStartText ++ gpgBin)
    else
      (true, gpgBin ++ [' '] ++ joinSpace infoArguments ++ [Char.ofNat 10] ++ output)
  else
    (false, tr notFoundText)

/-- The static members `GpgProcess::m_gpgBin` and `GpgProcess::m_gpgAgentConfig`. -/
structure Statics where
  m_gpgBin : QString
  m_gpgAgentConfig : QString
  deriving DecidableEq, Repr

/-- The initial value of the statics: both `QString()`. -/
def Statics.initial : Statics := ⟨[], []⟩

/-- The text `"/.gnupg/gpg-agent.conf"`. -/
def agentConfigSuffix : QString :=
  ['/', '.', 'g', 'n', 'u', 'p', 'g', '/', 'g', 'p', 'g', '-', 'a', 'g', 'e', 'n', 't',
   '.', 'c', 'o', 'n', 'f']

/-- The constructor `GpgProcess::GpgProcess(parent)`: its effect on the statics. -/
def construct (env : Env) (s : Statics) : Statics :=
  let s1 : Statics := if s.m_gpgBin.isEmpty then { s with m_gpgBin := findBin env } else s
  if s1.m_gpgAgentConfig.isEmpty then
    { s1 with m_gpgAgentConfig := env.homePath ++ agentConfigSuffix }
  else s1

/-- An example environment: the application directory `/opt/psi` holds only `gpg2`,
`/usr/bin` holds `gpg`, and `PATH` is `/usr/local/bin::/usr/bin:/usr/bin`. -/
def exampleEnv : Env :=
  { fileExists := fun p =>
      p == ['/', 'u', 's', 'r', '/', 'b', 'i', 'n', '/', 'g', 'p', 'g'] ||
      p == ['/', 'o', 'p', 't', '/', 'p', 's', 'i', '/', 'g', 'p', 'g', '2'],
    applicationDirPath := ['/', 'o', 'p', 't', '/', 'p', 's', 'i'],
    PATH := ['/', 'u', 's', 'r', '/', 'l', 'o', 'c', 'a', 'l', '/', 'b', 'i', 'n', ':', ':',
             '/', 'u', 's', 'r', '/', 'b', 'i', 'n', ':', '/', 'u', 's', 'r', '/', 'b', 'i', 'n'],
    homePath := ['/', 'h', 'o', 'm', 'e', '/', 'u'] }

/-- Example statics with a cached path `/usr/bin/gpg` and no agent configuration yet. -/
def exampleStatics : Statics :=
  { m_gpgBin := ['/', 'u', 's', 'r', '/', 'b', 'i', 'n', '/', 'g', 'p', 'g'],
    m_gpgAgentConfig := [] }

end OpenPgpPluginNamespace

namespace psiotr

/-- Modelled from the spec: the role of a verification exchange (section 3).  The header
declares it as `AuthenticationDialog::m_isSender`; the code that uses it is missing. -/
inductive Role where
  | Initiator
  | Responder
  deriving DecidableEq, Repr

/-- Modelled from the spec: the outcome of a verification exchange (section 3); the
header has no such member and the bodies of `AuthenticationDialog` are missing. -/
inductive Outcome where
  | Pending
  | Matched
  | Mismatched
  | Aborted
  deriving DecidableEq, Repr

/-- Modelled from the spec: the data of one verification exchange (section 3),
`AuthenticationDialog` in the header, whose member-function bodies are missing.
`progress` is declared `int` by `updateSMP(int progress)`; the range `0..100` of the
spec is the predicate `VerificationExchange.WellFormed`. -/
structure VerificationExchange where
  role : Role
  sharedSecretQuestion : Option String
  progress : Int
  outcome : Outcome
  deriving DecidableEq, Repr

/-- Modelled from the spec: the states of the session state machine (section 4.1); the
body of `PsiOtrClosure::encrypted()` is missing. -/
inductive SessionState where
  | Unknown
  | Plaintext
  | Encrypted
  | Finished
  deriving DecidableEq, Repr

/-- Modelled from the spec: the session of section 3, `PsiOtrClosure` in the header
(`loggedIn` is `m_isLoggedIn`, `activeVerification` is `m_authDialog`, the identity is
`m_myAccount` and `m_otherJid`); the member-function bodies are missing. -/
structure Session where
  localAccount : String
  peerIdentity : String
  loggedIn : Bool
  state : SessionState
  activeVerification : Option VerificationExchange
  deriving DecidableEq, Repr

/-- Modelled from the spec: the error taxonomy of section 7, absent from the sources. -/
inductive SessionError where
  | PeerOffline
  | InvalidTransition
  | StaleEvent
  | CryptoFailure
  deriving DecidableEq, Repr

/-- Modelled from the spec: the calls the core makes on its collaborators (section 6),
absent from the sources: the notification sink, the trust store and the crypto engine.
The account and peer arguments are those of the session and are left out. -/
inductive Effect where
  | onStateChanged (newState : SessionState)
  | onVerificationUpdated (progress : Int) (outcome : Outcome)
  | onVerificationRequested (question : Option String)
  | markFingerprintVerified
  | beginHandshake
  | beginSMP (role : Role) (question : Option String) (secret : String)
  deriving DecidableEq, Repr

/-- Modelled from the spec: what one operation of section 4.1 produces, the bodies of
the `PsiOtrClosure` members being missing: the session afterwards, the error reported
(`none` when the operation is carried out) and the calls made on the collaborators. -/
structure Step where
  session : Session
  report : Option SessionError
  effects : List Effect
  deriving DecidableEq, Repr

/-- Modelled from the spec: the range `0..100` of `progress` (section 3), the type of
the missing progress bar value. -/
def VerificationExchange.WellFormed (v : VerificationExchange) : Prop :=
  0 ≤ v.progress ∧ v.progress ≤ 100

instance (v : VerificationExchange) : Decidable v.WellFormed :=
  inferInstanceAs (Decidable (0 ≤ v.progress ∧ v.progress ≤ 100))

/-- Modelled from the spec: "clamps to [0,100]" (section 4.2), part of the missing body
of `AuthenticationDialog::updateSMP`. -/
def clampProgress (p : Int) : Int :=
  max 0 (min 100 p)

/-- Modelled from the spec: the progress update of an exchange (section 4.2), the
missing body of `AuthenticationDialog::updateSMP`: no update is accepted once the
outcome has left `Pending`; otherwise the delta is added, the result clamped to
`[0,100]`, and the progress never goes down. -/
def VerificationExchange.updateSMP (v : VerificationExchange) (delta : Int) :
    VerificationExchange :=
  if v.outcome ≠ Outcome.Pending then v
  else { v with progress := max v.progress (clampProgress (v.progress + delta)) }

/-- Modelled from the spec: a sequence of progress updates applied in order, the
missing body of `AuthenticationDialog::updateSMP` being called once per update. -/
def VerificationExchange.updates (v : VerificationExchange) :
    List Int → VerificationExchange
  | [] => v
  | delta :: rest => VerificationExchange.updates (v.updateSMP delta) rest

/-- Modelled from the spec: cancelling an exchange "with outcome `Aborted`" (section
4.1), the missing body of `AuthenticationDialog::reject`: a pending exchange becomes
aborted, a terminal outcome is kept. -/
def VerificationExchange.abort (v : VerificationExchange) : VerificationExchange :=
  if v.outcome = Outcome.Pending then { v with outcome := Outcome.Aborted } else v

/-- Modelled from the spec: a newly created exchange (section 3, lifecycle), the
missing body of the `AuthenticationDialog` constructor: no progress yet, outcome
`Pending`. -/
def VerificationExchange.create (role : Role) (question : Option String) :
    VerificationExchange :=
  { role := role, sharedSecretQuestion := question, progress := 0,
    outcome := Outcome.Pending }

/-- Modelled from the spec: a session as first created (section 3, lifecycle), the
missing body of the `PsiOtrClosure` constructor: state `Unknown`, peer not logged in,
no verification exchange. -/
def Session.fresh (account peer : String) : Session :=
  { localAccount := account, peerIdentity := peer, loggedIn := false,
    state := SessionState.Unknown, activeVerification := none }

/-- Modelled from the spec: the query `isEncrypted()` (section 4.1), the missing body
of `PsiOtrClosure::encrypted()`. -/
def Session.isEncrypted (s : Session) : Bool :=
  decide (s.state = SessionState.Encrypted)

/-- Modelled from the spec: the notifications of cancelling the active exchange, if
any, with outcome `Aborted` (section 4.1), part of the missing member bodies. -/
def cancelEffects (s : Session) : List Effect :=
  match s.activeVerification with
  | some v => [Effect.onVerificationUpdated v.progress v.abort.outcome]
  | none => []

/-- Modelled from the spec: a transition out of `Encrypted` (section 4.1), part of the
missing member bodies: it first cancels the active verification with outcome
`Aborted`, notifying the listener, then moves to `Finished`. -/
def Session.leaveEncrypted (s : Session) (report : Option SessionError) : Step :=
  { session := { s with state := SessionState.Finished, activeVerification := none },
    report := report,
    effects := cancelEffects s ++ [Effect.onStateChanged SessionState.Finished] }

/-- Modelled from the spec: "`Unknown → Plaintext`: on first observation of the peer"
(section 4.1), part of the missing member bodies. -/
def Session.observePeer (s : Session) : Session :=
  if s.state = SessionState.Unknown then { s with state := SessionState.Plaintext } else s

/-- Modelled from the spec: `initiateSession()` (section 4.1 and the `PeerOffline` entry
of section 7), the missing body of `PsiOtrClosure::initiateSession`: reports "peer
offline" and does nothing when the peer is not logged in; is valid only when not
already `Encrypted`; otherwise asks the crypto engine to begin the handshake, whose
result arrives later through `onHandshakeComplete`. -/
def Session.initiateSession (s : Session) : Step :=
  if s.loggedIn = false then
    { session := s, report := some SessionError.PeerOffline, effects := [] }
  else if s.state = SessionState.Encrypted then
    { session := s, report := some SessionError.InvalidTransition, effects := [] }
  else
    { session := s, report := none, effects := [Effect.beginHandshake] }

/-- Modelled from the spec: `endSession()` (section 4.1), the missing body of
`PsiOtrClosure::endSession`: valid only when `Encrypted`; tears down encryption, moves
to `Finished` and aborts the active verification; otherwise a reported no-op. -/
def Session.endSession (s : Session) : Step :=
  if s.state = SessionState.Encrypted then s.leaveEncrypted none
  else { session := s, report := some SessionError.InvalidTransition, effects := [] }

/-- Modelled from the spec: `setLoggedIn(bool)` (section 4.1), the missing body of
`PsiOtrClosure::setIsLoggedIn`: updates the presence flag; going offline while
`Encrypted` has the effect of `endSession()`; a presence update is an observation of
the peer. -/
def Session.setLoggedIn (s : Session) (isLoggedIn : Bool) : Step :=
  let s1 : Session := { s with loggedIn := isLoggedIn }
  if isLoggedIn = false ∧ s1.state = SessionState.Encrypted then s1.leaveEncrypted none
  else { session := s1.observePeer, report := none, effects := [] }

/-- Modelled from the spec: `startVerification(question, secret)` (section 4.1), the
missing body of `PsiOtrClosure::verifyFingerprint` and
`AuthenticationDialog::startAuthentication`: `PeerOffline` when not logged in; valid
only when `Encrypted`; an exchange already there is aborted first
(abort-then-restart); a new `Initiator` exchange is created and the first protocol
message is handed to the crypto engine. -/
def Session.startVerification (s : Session) (question : Option String)
    (secret : String) : Step :=
  if s.loggedIn = false then
    { session := s, report := some SessionError.PeerOffline, effects := [] }
  else if s.state ≠ SessionState.Encrypted then
    { session := s, report := some SessionError.InvalidTransition, effects := [] }
  else
    { session := { s with
        activeVerification := some (VerificationExchange.create Role.Initiator question) },
      report := none,
      effects := cancelEffects s ++
        [Effect.beginSMP Role.Initiator question secret,
         Effect.onVerificationUpdated 0 Outcome.Pending] }

/-- Modelled from the spec: `receiveVerificationRequest(question)` (section 4.1), the
missing body of `PsiOtrClosure::receivedSMP`: "invoked when the peer initiates SMP;
creates a `Responder`-role exchange; surfaces the question".  The spec gives this
operation no condition on the session state, and none is added here; an exchange
already there is aborted first, one exchange being active at a time (section 3). -/
def Session.receiveVerificationRequest (s : Session) (question : Option String) : Step :=
  { session := { s with
      activeVerification := some (VerificationExchange.create Role.Responder question) },
    report := none,
    effects := cancelEffects s ++ [Effect.onVerificationRequested question] }

/-- Modelled from the spec: `supplyVerificationSecret(secret)` (section 4.1), part of
the missing body of `AuthenticationDialog::startAuthentication`: completes the
responder's half by handing the secret to the crypto engine. -/
def Session.supplyVerificationSecret (s : Session) (secret : String) : Step :=
  match s.activeVerification with
  | some v =>
    if v.role = Role.Responder ∧ v.outcome = Outcome.Pending then
      { session := s, report := none,
        effects := [Effect.beginSMP Role.Responder v.sharedSecretQuestion secret] }
    else { session := s, report := some SessionError.InvalidTransition, effects := [] }
  | none => { session := s, report := some SessionError.InvalidTransition, effects := [] }

/-- Modelled from the spec: `onVerificationProgress(progressDelta)` (section 4.1), the
missing body of `PsiOtrClosure::updateSMP`: hands the update to the active exchange;
with no exchange the event is stale and discarded. -/
def Session.updateSMP (s : Session) (delta : Int) : Step :=
  match s.activeVerification with
  | some v =>
    { session := { s with activeVerification := some (v.updateSMP delta) },
      report := none,
      effects := [Effect.onVerificationUpdated (v.updateSMP delta).progress
                    (v.updateSMP delta).outcome] }
  | none => { session := s, report := some SessionError.StaleEvent, effects := [] }

/-- Modelled from the spec: the callback `onSMPComplete(outcome)` (sections 4.1, 6 and
7), the missing body of `PsiOtrClosure::finishSMP`: the final outcome of a pending
exchange is notified, `markFingerprintVerified` is called on `Matched` only, and the
exchange, having reached a terminal outcome, is destroyed; anything else is stale. -/
def Session.finishSMP (s : Session) (outcome : Outcome) : Step :=
  match s.activeVerification with
  | some v =>
    if v.outcome = Outcome.Pending ∧ outcome ≠ Outcome.Pending then
      { session := { s with activeVerification := none },
        report := if outcome = Outcome.Aborted then some SessionError.CryptoFailure else none,
        effects := Effect.onVerificationUpdated v.progress outcome ::
          (if outcome = Outcome.Matched then [Effect.markFingerprintVerified] else []) }
    else { session := s, report := some SessionError.StaleEvent, effects := [] }
  | none => { session := s, report := some SessionError.StaleEvent, effects := [] }

/-- Modelled from the spec: `cancelVerification()` (section 4.1), the missing body of
`AuthenticationDialog::reject`: sets the outcome to `Aborted` and destroys the
exchange; always succeeds, and does nothing when no exchange is active. -/
def Session.cancelVerification (s : Session) : Step :=
  { session := { s with activeVerification := none }, report := none,
    effects := cancelEffects s }

/-- Modelled from the spec: the callback `onHandshakeComplete(success)` (sections 4.1,
6 and 7), part of the missing body of `PsiOtrClosure::updateMessageState`: success
moves `Plaintext` or `Finished` to `Encrypted`, only while logged in; a failure is
mapped to `Finished`; a completion arriving in any other situation is stale. -/
def Session.onHandshakeComplete (s : Session) (success : Bool) : Step :=
  if s.state = SessionState.Encrypted then
    { session := s, report := some SessionError.StaleEvent, effects := [] }
  else if success = false then
    { session := { s with state := SessionState.Finished },
      report := some SessionError.CryptoFailure,
      effects := [Effect.onStateChanged SessionState.Finished] }
  else if s.loggedIn = true ∧
      (s.state = SessionState.Plaintext ∨ s.state = SessionState.Finished) then
    { session := { s with state := SessionState.Encrypted }, report := none,
      effects := [Effect.onStateChanged SessionState.Encrypted] }
  else { session := s, report := some SessionError.StaleEvent, effects := [] }

/-- Modelled from the spec: "`Encrypted → Finished` ... on peer tearing down their side
of the encrypted session" (section 4.1), part of the missing body of
`PsiOtrClosure::updateMessageState`. -/
def Session.peerEndedSession (s : Session) : Step :=
  if s.state = SessionState.Encrypted then s.leaveEncrypted none
  else { session := s, report := some SessionError.StaleEvent, effects := [] }

/-- Modelled from the spec: the operations and callbacks of section 4.1 and section 6
that act on a session, the dispatching code being missing. -/
inductive Op where
  | observePeer
  | initiateSession
  | endSession
  | setLoggedIn (isLoggedIn : Bool)
  | startVerification (question : Option String) (secret : String)
  | receiveVerificationRequest (question : Option String)
  | supplyVerificationSecret (secret : String)
  | cancelVerification
  | onHandshakeComplete (success : Bool)
  | onSMPProgress (delta : Int)
  | onSMPComplete (outcome : Outcome)
  | peerEndedSession
  deriving DecidableEq, Repr

/-- Modelled from the spec: one operation applied to a session, the dispatching code
being missing. -/
def Session.step (s : Session) : Op → Step
  | Op.observePeer => { session := s.observePeer, report := none, effects := [] }
  | Op.initiateSession => s.initiateSession
  | Op.endSession => s.endSession
  | Op.setLoggedIn isLoggedIn => s.setLoggedIn isLoggedIn
  | Op.startVerification question secret => s.startVerification question secret
  | Op.receiveVerificationRequest question => s.receiveVerificationRequest question
  | Op.supplyVerificationSecret secret => s.supplyVerificationSecret secret
  | Op.cancelVerification => s.cancelVerification
  | Op.onHandshakeComplete success => s.onHandshakeComplete success
  | Op.onSMPProgress delta => s.updateSMP delta
  | Op.onSMPComplete outcome => s.finishSMP outcome
  | Op.peerEndedSession => s.peerEndedSession

/-- Modelled from the spec: a sequence of operations applied in order (section 5: one
serialized event stream per session), the dispatching code being missing. -/
def Session.run (s : Session) : List Op → Session
  | [] => s
  | op :: rest => Session.run (s.step op).session rest

/-- Modelled from the spec: the invariant of section 3 and section 8, "`activeVerification`
is non-empty only while state is `Encrypted`"; it constrains the missing member bodies
of `PsiOtrClosure`. -/
def Session.Invariant (s : Session) : Prop :=
  s.activeVerification ≠ none → s.state = SessionState.Encrypted

instance (s : Session) : Decidable s.Invariant :=
  inferInstanceAs (Decidable (s.activeVerification ≠ none → s.state = SessionState.Encrypted))

/-- An example exchange: started locally, pending at progress 40. -/
def exampleExchange : VerificationExchange :=
  { role := Role.Initiator, sharedSecretQuestion := none, progress := 40,
    outcome := Outcome.Pending }

/-- An example session: logged in, encrypted, with `exampleExchange` in progress. -/
def exampleSession : Session :=
  { localAccount := "alice", peerIdentity := "bob", loggedIn := true,
    state := SessionState.Encrypted, activeVerification := some exampleExchange }

/-- Whether an operation is the receipt of a peer-initiated verification request. -/
def Op.isVerificationRequest : Op → Bool
  | Op.receiveVerificationRequest _ => true
  | _ => false

/-- Whether, in the run of `ops` from `s`, every `receiveVerificationRequest` arrives
while the session is `Encrypted`. -/
def Session.requestsWhileEncrypted (s : Session) : List Op → Bool
  | [] => true
  | op :: rest =>
    (!op.isVerificationRequest || decide (s.state = SessionState.Encrypted)) &&
      Session.requestsWhileEncrypted (s.step op).session rest

/-- An example sequence of operations: the peer comes online, a session is initiated,
the handshake completes, the peer requests a verification, a round completes, and the
peer goes offline. -/
def exampleOps : List Op :=
  [Op.setLoggedIn true, Op.initiateSession, Op.onHandshakeComplete true,
   Op.receiveVerificationRequest (some "pet name?"), Op.onSMPProgress 40,
   Op.setLoggedIn false]

/-- An example exchange that has ended with outcome `Matched` at progress 100. -/
def matchedExchange : VerificationExchange :=
  { role := Role.Responder, sharedSecretQuestion := none, progress := 100,
    outcome := Outcome.Matched }

end psiotr

/-! ## The GnuPG process wrapper -/

namespace OpenPgpPluginNamespace

theorem searchBins_eq_none_iff (env : Env) (dir : QString) (l : List QString) :
    searchBins env dir l = none ↔ ∀ name ∈ l, env.fileExists (dir ++ ['/'] ++ name) = false := by
  induction l with
  | nil => simp [searchBins]
  | cons b rest ih =>
    simp only [searchBins, checkBin, List.mem_cons, forall_eq_or_imp]
    by_cases hb : env.fileExists (dir ++ ['/'] ++ b) = true
    · rw [if_pos hb]
      constructor
      · intro h; cases h
      · intro h; rw [h.1] at hb; cases hb
    · rw [if_neg hb, ih]
      simp only [Bool.not_eq_true] at hb
      exact ⟨fun h => ⟨hb, h⟩, fun h => h.2⟩

theorem searchBins_some_ne_nil (env : Env) (dir : QString) (l : List QString)
    (found : QString) (h : searchBins env dir l = some found) : found ≠ [] := by
  induction l with
  | nil => simp [searchBins] at h
  | cons b rest ih =>
    simp only [searchBins, checkBin] at h
    by_cases hb : env.fileExists (dir ++ ['/'] ++ b) = true
    · rw [if_pos hb, Option.some.injEq] at h
      rw [← h]
      simp
    · rw [if_neg hb] at h
      exact ih h

theorem searchPaths_eq_none_iff (env : Env) (paths : List QString) :
    searchPaths env paths = none ↔
      ∀ dir ∈ paths, ∀ name ∈ bins, env.fileExists (dir ++ ['/'] ++ name) = false := by
  induction paths with
  | nil => simp [searchPaths]
  | cons p rest ih =>
    cases hp : searchBins env p bins with
    | none =>
      have hnone := (searchBins_eq_none_iff env p bins).mp hp
      simp only [searchPaths, hp, ih, List.mem_cons, forall_eq_or_imp]
      exact ⟨fun h => ⟨hnone, h⟩, fun h => h.2⟩
    | some found =>
      simp only [searchPaths, hp, List.mem_cons, forall_eq_or_imp]
      constructor
      · intro h; cases h
      · intro h
        have := (searchBins_eq_none_iff env p bins).mpr h.1
        rw [hp] at this
        cases this

theorem searchPaths_some_ne_nil (env : Env) (paths : List QString) (found : QString)
    (h : searchPaths env paths = some found) : found ≠ [] := by
  induction paths with
  | nil => simp [searchPaths] at h
  | cons p rest ih =>
    cases hp : searchBins env p bins with
    | none =>
      simp only [searchPaths, hp] at h
      exact ih h
    | some f =>
      simp only [searchPaths, hp, Option.some.injEq] at h
      subst h
      exact searchBins_some_ne_nil env p bins f hp

theorem mem_removeDuplicates (a : QString) (l : List QString) :
    a ∈ removeDuplicates l ↔ a ∈ l := by
  induction l with
  | nil => simp [removeDuplicates]
  | cons x xs ih =>
    simp only [removeDuplicates, List.mem_cons, List.mem_filter, ih, decide_eq_true_eq]
    constructor
    · rintro (h | ⟨h, _⟩)
      · exact Or.inl h
      · exact Or.inr h
    · intro h
      by_cases hax : a = x
      · exact Or.inl hax
      · rcases h with h | h
        · exact Or.inl h
        · exact Or.inr ⟨h, hax⟩

theorem mem_splitSkipEmptyParts (sep : Char) (s dir : QString) :
    dir ∈ splitSkipEmptyParts sep s ↔ dir ∈ s.splitOn sep ∧ dir ≠ [] := by
  simp [splitSkipEmptyParts, List.mem_filter]

/-- C6: a bundled gpg is preferred.  If `applicationDir + "/gpg"` or
`applicationDir + "/gpg2"` exists, `findBin` returns the first of the two that exists,
whatever the file system says elsewhere and whatever `PATH` holds. -/
theorem findBin_prefers_bundled (env : Env)
    (h : env.fileExists (env.applicationDirPath ++ ['/'] ++ ['g', 'p', 'g']) = true ∨
      env.fileExists (env.applicationDirPath ++ ['/'] ++ ['g', 'p', 'g', '2']) = true) :
    findBin env =
      if env.fileExists (env.applicationDirPath ++ ['/'] ++ ['g', 'p', 'g']) = true then
        env.applicationDirPath ++ ['/'] ++ ['g', 'p', 'g']
      else env.applicationDirPath ++ ['/'] ++ ['g', 'p', 'g', '2'] := by
  unfold findBin
  simp only [searchBins, bins, checkBin]
  by_cases h1 : env.fileExists (env.applicationDirPath ++ ['/'] ++ ['g', 'p', 'g']) = true
  · simp only [if_pos h1]
  · have h2 : env.fileExists (env.applicationDirPath ++ ['/'] ++ ['g', 'p', 'g', '2']) = true :=
      h.resolve_left h1
    simp only [if_neg h1, if_pos h2]

/-- Witness: in the example environment only `gpg2` is bundled and `/usr/bin/gpg`
exists on `PATH`; `findBin` returns `/opt/psi/gpg2`. -/
theorem findBin_prefers_bundled_witness :
    findBin exampleEnv = ['/', 'o', 'p', 't', '/', 'p', 's', 'i', '/', 'g', 'p', 'g', '2'] :=
  (findBin_prefers_bundled exampleEnv (Or.inr (by decide))).trans (by decide)

/-- C7: `findBin` returns the empty string exactly when gpg is not found: no candidate
`dir + "/" + name` exists, `dir` being the application directory or a non-empty
colon-separated entry of `PATH`, `name` being `gpg` or `gpg2`. -/
theorem findBin_eq_empty_iff (env : Env) :
    findBin env = [] ↔
      ∀ dir : QString,
        (dir = env.applicationDirPath ∨ (dir ∈ env.PATH.splitOn ':' ∧ dir ≠ [])) →
        ∀ name : QString, (name = ['g', 'p', 'g'] ∨ name = ['g', 'p', 'g', '2']) →
          env.fileExists (dir ++ ['/'] ++ name) = false := by
  have hbins : ∀ name : QString,
      (name = ['g', 'p', 'g'] ∨ name = ['g', 'p', 'g', '2']) ↔ name ∈ bins := by
    intro name; simp [bins]
  have hpaths : ∀ dir : QString,
      dir ∈ removeDuplicates (splitSkipEmptyParts pathSep env.PATH) ↔
        (dir ∈ env.PATH.splitOn ':' ∧ dir ≠ []) := by
    intro dir
    rw [mem_removeDuplicates, mem_splitSkipEmptyParts]
    rfl
  unfold findBin
  cases happ : searchBins env env.applicationDirPath bins with
  | some found =>
    simp only
    constructor
    · intro h
      exact absurd h (searchBins_some_ne_nil env _ _ found happ)
    · intro h
      have hnone := (searchBins_eq_none_iff env env.applicationDirPath bins).mpr
        (fun name hname => h env.applicationDirPath (Or.inl rfl) name ((hbins name).mpr hname))
      rw [happ] at hnone
      cases hnone
  | none =>
    have happ2 := (searchBins_eq_none_iff env env.applicationDirPath bins).mp happ
    simp only
    cases hp : searchPaths env (removeDuplicates (splitSkipEmptyParts pathSep env.PATH)) with
    | some found =>
      simp only
      constructor
      · intro h
        exact absurd h (searchPaths_some_ne_nil env _ found hp)
      · intro h
        have hnone := (searchPaths_eq_none_iff env
          (removeDuplicates (splitSkipEmptyParts pathSep env.PATH))).mpr
          (fun dir hdir name hname =>
            h dir (Or.inr ((hpaths dir).mp hdir)) name ((hbins name).mpr hname))
        rw [hp] at hnone
        cases hnone
    | none =>
      have hp2 := (searchPaths_eq_none_iff env _).mp hp
      simp only [true_iff]
      intro dir hdir name hname
      rcases hdir with hdir | hdir
      · subst hdir
        exact happ2 name ((hbins name).mp hname)
      · exact hp2 dir ((hpaths dir).mpr hdir) name ((hbins name).mp hname)

/-- C8: `info` returns true exactly when the cached gpg path is non-empty and the
process error is not `FailedToStart`; with an empty path the message is (the
translation of) "GnuPG program not found", with a non-empty path and a process that
failed to start it is (the translation of) "Can't start " followed by the path, and in
both cases the result is false. -/
theorem info_result (tr : QString → QString) (gpgBin : QString) (error : ProcessError)
    (output : QString) :
    ((info tr gpgBin error output).1 = true ↔
        (gpgBin ≠ [] ∧ error ≠ ProcessError.FailedToStart)) ∧
      (gpgBin = [] → info tr gpgBin error output = (false, tr notFoundText)) ∧
      (gpgBin ≠ [] → error = ProcessError.FailedToStart →
        info tr gpgBin error output = (false, tr cantStartText ++ gpgBin)) := by
  refine ⟨?_, ?_, ?_⟩
  · cases gpgBin with
    | nil => simp [info]
    | cons c cs =>
      by_cases he : error = ProcessError.FailedToStart
      · simp [info, he]
      · simp [info, he]
  · intro h
    subst h
    simp [info]
  · intro h he
    cases gpgBin with
    | nil => exact absurd rfl h
    | cons c cs => simp [info, he]

/-- C9: the gpg path is a process-wide cached value.  When the static `m_gpgBin` is
non-empty, constructing another `GpgProcess` leaves it unchanged, whatever the file
system, application directory and `PATH` are (the result of `findBin` is not used);
`findBin` is consulted only when `m_gpgBin` is empty. -/
theorem construct_keeps_cached_gpgBin (s : Statics) (h : s.m_gpgBin ≠ []) :
    (∀ env : Env, (construct env s).m_gpgBin = s.m_gpgBin) ∧
      (∀ env : Env, ∀ t : Statics, t.m_gpgBin = [] →
        (construct env t).m_gpgBin = findBin env) := by
  constructor
  · intro env
    cases hs : s.m_gpgBin with
    | nil => exact absurd hs h
    | cons c cs =>
      unfold construct
      simp only [hs, List.isEmpty_cons, Bool.false_eq_true, if_false]
      split <;> simp [hs]
  · intro env t ht
    unfold construct
    simp only [ht, List.isEmpty_nil, if_true]
    split <;> rfl

/-- Witness: with `/usr/bin/gpg` cached, constructing a `GpgProcess` in the
example environment, where `findBin` yields `/opt/psi/gpg2`, keeps `/usr/bin/gpg`. -/
theorem construct_keeps_cached_gpgBin_witness :
    findBin exampleEnv ≠ exampleStatics.m_gpgBin ∧
      (construct exampleEnv exampleStatics).m_gpgBin =
        ['/', 'u', 's', 'r', '/', 'b', 'i', 'n', '/', 'g', 'p', 'g'] :=
  ⟨by decide, (construct_keeps_cached_gpgBin exampleStatics (by decide)).1 exampleEnv⟩

end OpenPgpPluginNamespace

/-! ## The session coordinator and the verification exchange -/

namespace psiotr

theorem leaveEncrypted_invariant (s : Session) (report : Option SessionError) :
    (s.leaveEncrypted report).session.Invariant := by
  intro h
  exact absurd rfl h

theorem observePeer_invariant (s : Session) (h : s.Invariant) : s.observePeer.Invariant := by
  unfold Session.observePeer
  split
  · next hu =>
    intro hv
    have := h hv
    rw [hu] at this
    cases this
  · exact h

theorem step_invariant (s : Session) (op : Op) (h : s.Invariant)
    (hop : op.isVerificationRequest = true → s.state = SessionState.Encrypted) :
    (s.step op).session.Invariant := by
  cases op with
  | observePeer => exact observePeer_invariant s h
  | initiateSession =>
    simp only [Session.step, Session.initiateSession]
    split
    · exact h
    · split <;> exact h
  | endSession =>
    simp only [Session.step, Session.endSession]
    split
    · exact leaveEncrypted_invariant s none
    · exact h
  | setLoggedIn b =>
    simp only [Session.step, Session.setLoggedIn]
    split
    · exact leaveEncrypted_invariant _ none
    · exact observePeer_invariant _ h
  | startVerification question secret =>
    simp only [Session.step, Session.startVerification]
    split
    · exact h
    · split
      · exact h
      · next hs =>
        intro _
        exact not_not.mp hs
  | receiveVerificationRequest question =>
    intro _
    exact hop rfl
  | supplyVerificationSecret secret =>
    simp only [Session.step, Session.supplyVerificationSecret]
    split
    · split <;> exact h
    · exact h
  | cancelVerification =>
    intro hv
    exact absurd rfl hv
  | onHandshakeComplete success =>
    simp only [Session.step, Session.onHandshakeComplete]
    split
    · exact h
    · next hne =>
      split
      · intro hv
        exact absurd (h hv) hne
      · split
        · intro _
          rfl
        · exact h
  | onSMPProgress delta =>
    simp only [Session.step, Session.updateSMP]
    split
    · next v hv =>
      intro _
      exact h (by rw [hv]; simp)
    · exact h
  | onSMPComplete outcome =>
    simp only [Session.step, Session.finishSMP]
    split
    · split
      · intro hv
        exact absurd rfl hv
      · exact h
    · exact h
  | peerEndedSession =>
    simp only [Session.step, Session.peerEndedSession]
    split
    · exact leaveEncrypted_invariant s none
    · exact h

theorem run_invariant (ops : List Op) (s : Session) (h : s.Invariant)
    (hreq : s.requestsWhileEncrypted ops = true) : (s.run ops).Invariant := by
  induction ops generalizing s with
  | nil => exact h
  | cons op rest ih =>
    simp only [Session.requestsWhileEncrypted, Bool.and_eq_true, Bool.or_eq_true,
      Bool.not_eq_true', decide_eq_true_eq] at hreq
    refine ih _ (step_invariant s op h ?_) hreq.2
    intro hop
    rcases hreq.1 with hf | he
    · rw [hf] at hop
      cases hop
    · exact he

theorem requestsWhileEncrypted_take (ops : List Op) (k : Nat) (s : Session)
    (hreq : s.requestsWhileEncrypted ops = true) :
    s.requestsWhileEncrypted (ops.take k) = true := by
  induction ops generalizing s k with
  | nil => simp [Session.requestsWhileEncrypted]
  | cons op rest ih =>
    cases k with
    | zero => simp [Session.requestsWhileEncrypted]
    | succ n =>
      simp only [Session.requestsWhileEncrypted, Bool.and_eq_true] at hreq
      simp only [List.take_succ_cons, Session.requestsWhileEncrypted, Bool.and_eq_true]
      exact ⟨hreq.1, ih n _ hreq.2⟩

theorem updates_append (v : VerificationExchange) (pre : List Int) (delta : Int) :
    v.updates (pre ++ [delta]) = (v.updates pre).updateSMP delta := by
  induction pre generalizing v with
  | nil => rfl
  | cons d rest ih => exact ih (v.updateSMP d)

theorem updateSMP_wellFormed (v : VerificationExchange) (delta : Int) (h : v.WellFormed) :
    (v.updateSMP delta).WellFormed ∧ v.progress ≤ (v.updateSMP delta).progress := by
  obtain ⟨h0, h100⟩ := h
  unfold VerificationExchange.updateSMP
  split
  · exact ⟨⟨h0, h100⟩, le_refl _⟩
  · simp only [VerificationExchange.WellFormed, clampProgress]
    omega

theorem updates_wellFormed (deltas : List Int) (v : VerificationExchange) (h : v.WellFormed) :
    (v.updates deltas).WellFormed := by
  induction deltas generalizing v with
  | nil => exact h
  | cons d rest ih => exact ih _ (updateSMP_wellFormed v d h).1

/-- C2: in every session whose state is `Encrypted`, `endSession()` leaves the session
`Finished` with no active verification exchange, and an exchange that was `Pending`
before the call is notified with outcome `Aborted`. -/
theorem endSession_aborts_verification (s : Session)
    (h : s.state = SessionState.Encrypted) :
    s.endSession.session.activeVerification = none ∧
      s.endSession.session.state = SessionState.Finished ∧
      ∀ v : VerificationExchange, s.activeVerification = some v →
        v.outcome = Outcome.Pending →
        v.abort.outcome = Outcome.Aborted ∧
          Effect.onVerificationUpdated v.progress Outcome.Aborted ∈ s.endSession.effects := by
  unfold Session.endSession
  rw [if_pos h]
  refine ⟨rfl, rfl, ?_⟩
  intro v hv hp
  have ha : v.abort.outcome = Outcome.Aborted := by
    simp [VerificationExchange.abort, hp]
  refine ⟨ha, ?_⟩
  simp [Session.leaveEncrypted, cancelEffects, hv, ha]

/-- Witness: the example session is encrypted with a verification pending at
progress 40; `endSession()` empties it and notifies `Aborted` at progress 40. -/
theorem endSession_aborts_verification_witness :
    exampleSession.endSession.session.activeVerification = none ∧
      Effect.onVerificationUpdated 40 Outcome.Aborted ∈ exampleSession.endSession.effects :=
  ⟨(endSession_aborts_verification exampleSession rfl).1,
   ((endSession_aborts_verification exampleSession rfl).2.2 exampleExchange rfl rfl).2⟩

/-- C3: in every session with `loggedIn == false`, `initiateSession()` reports
`PeerOffline`, the session afterwards (logged-in flag, state, active verification)
equals the session before, and no collaborator is called. -/
theorem initiateSession_offline (s : Session) (h : s.loggedIn = false) :
    s.initiateSession.report = some SessionError.PeerOffline ∧
      s.initiateSession.session = s ∧ s.initiateSession.effects = [] := by
  unfold Session.initiateSession
  rw [if_pos h]
  exact ⟨rfl, rfl, rfl⟩

/-- Witness: a fresh session is not logged in; `initiateSession()` reports
`PeerOffline` and leaves it as it was. -/
theorem initiateSession_offline_witness :
    (Session.fresh "alice" "bob").initiateSession.report = some SessionError.PeerOffline ∧
      (Session.fresh "alice" "bob").initiateSession.session = Session.fresh "alice" "bob" :=
  ⟨(initiateSession_offline (Session.fresh "alice" "bob") rfl).1,
   (initiateSession_offline (Session.fresh "alice" "bob") rfl).2.1⟩

/-- C4: for every exchange whose outcome is terminal (`Matched`, `Mismatched` or
`Aborted`) and every update value, a further progress update leaves the exchange's
progress and outcome unchanged, also when it arrives through the session holding the
exchange. -/
theorem updateSMP_terminal_unchanged (v : VerificationExchange) (delta : Int)
    (h : v.outcome = Outcome.Matched ∨ v.outcome = Outcome.Mismatched ∨
      v.outcome = Outcome.Aborted) :
    (v.updateSMP delta).progress = v.progress ∧
      (v.updateSMP delta).outcome = v.outcome ∧
      ∀ s : Session, s.activeVerification = some v →
        (s.updateSMP delta).session.activeVerification = some v := by
  have hne : v.outcome ≠ Outcome.Pending := by
    rcases h with h | h | h <;> rw [h] <;> decide
  have hv : v.updateSMP delta = v := by
    unfold VerificationExchange.updateSMP
    rw [if_pos hne]
  refine ⟨by rw [hv], by rw [hv], ?_⟩
  intro s hs
  simp only [Session.updateSMP, hs, hv]

/-- Witness: an exchange that ended `Matched` at progress 100 is not changed by
a late update of -30. -/
theorem updateSMP_terminal_unchanged_witness :
    (matchedExchange.updateSMP (-30)).progress = 100 ∧
      (matchedExchange.updateSMP (-30)).outcome = Outcome.Matched :=
  ⟨(updateSMP_terminal_unchanged matchedExchange (-30) (Or.inl rfl)).1,
   (updateSMP_terminal_unchanged matchedExchange (-30) (Or.inl rfl)).2.1⟩

/-- C5: for every exchange (progress within `0..100`) and every sequence of integer
progress updates, negative and above 100 included, after each update the progress is
within `0..100` and not lower than before that update. -/
theorem updates_progress_bounded_monotone (v : VerificationExchange) (h : v.WellFormed)
    (pre : List Int) (delta : Int) :
    0 ≤ (v.updates (pre ++ [delta])).progress ∧
      (v.updates (pre ++ [delta])).progress ≤ 100 ∧
      (v.updates pre).progress ≤ (v.updates (pre ++ [delta])).progress := by
  rw [updates_append]
  have hpre := updates_wellFormed pre v h
  have hstep := updateSMP_wellFormed (v.updates pre) delta hpre
  exact ⟨hstep.1.1, hstep.1.2, hstep.2⟩

/-- Witness: from progress 40, the updates 40 and -250 leave progress 80, and a
further update of 1000 leaves it at 100. -/
theorem updates_progress_bounded_monotone_witness :
    exampleExchange.WellFormed ∧
      (exampleExchange.updates ([40, -250] ++ [1000])).progress ≤ 100 ∧
      (exampleExchange.updates [40, -250]).progress ≤
        (exampleExchange.updates ([40, -250] ++ [1000])).progress :=
  ⟨by decide, (updates_progress_bounded_monotone exampleExchange (by decide) [40, -250] 1000).2⟩

end psiotr
